import Mathlib

/-!
Verification of the datadabble filter-expression subsystem.

This file is a shallow embedding of the filter expression language of
`backend/app/api/v1/filter_parser.py` (lexer, recursive-descent parser,
AST, Mongo-query compiler) and of the type-coercion policy
`can_convert_value` of `backend/app/api/v1/fields.py`, together with
theorems checking the specification's claims about them.

Modelling conventions:
- Python strings are Lean `String`s; `isspace`/`isalpha`/`isdigit`/
  `isalnum` are modelled over the ASCII fragment (the grammar and all
  claims are ASCII).
- Python floats are modelled as exact rationals `ℚ`.  The subsystem
  performs no float arithmetic: floats are produced by parsing decimal
  literals and are only ever truncated (`int`), passed through
  (`float`), tested for zero (`bool`) or stringified, so the rational
  model is faithful on the finite-decimal fragment; IEEE `inf`/`nan`
  spellings, exponent notation and digit underscores are outside the
  modelled fragment.
- Fallible Python primitives (`int(..)`, `float(..)`) are modelled as
  `Option`-returning functions; a `try/except` around them becomes a
  `match` whose `none` arm is the `except` branch.  In the coercion
  policy, where `float(string)` can also yield IEEE specials and
  `int()` on an infinity raises an `OverflowError` that the policy's
  `except (ValueError, TypeError)` does not catch, the outcome classes
  are modelled in full (`PyFloatParse`) and the uncaught exception
  surfaces as an `Except.error`.
- The lexer and parser use an explicit recursion budget (`fuel`).
  Every lexer step consumes at least one character and every parser
  step at least one token, so a budget of input length + 1 (lexer)
  resp. a linear budget (parser) always suffices; the budget mirrors
  the finite Python call stack acknowledged by the specification.
-/

namespace Datadabble

/-! ## Python character predicates (ASCII fragment) -/

/-- ASCII model of Python `str.isspace` for a single character. -/
def pyIsSpace (c : Char) : Bool :=
  c.toNat = 32 || c.toNat = 9 || c.toNat = 10 || c.toNat = 13 || c.toNat = 11 || c.toNat = 12

/-- ASCII model of Python `str.isdigit` for a single character. -/
def pyIsDigit (c : Char) : Bool :=
  48 ≤ c.toNat && c.toNat ≤ 57

/-- ASCII model of Python `str.isalpha` for a single character. -/
def pyIsAlpha (c : Char) : Bool :=
  (65 ≤ c.toNat && c.toNat ≤ 90) || (97 ≤ c.toNat && c.toNat ≤ 122)

/-- Characters continuing an identifier in `Lexer.read_identifier`:
`char.isalnum() or char in "_-."`. -/
def isIdentChar (c : Char) : Bool :=
  pyIsAlpha c || pyIsDigit c || c = '_' || c = '-' || c = '.'

/-- Python `str.strip()` (ASCII whitespace model). -/
def pyStrip (s : String) : String :=
  String.mk (((s.toList.dropWhile pyIsSpace).reverse.dropWhile pyIsSpace).reverse)

/-- Python `str.lower()` (ASCII model, per-character lowering). -/
def pyLower (s : String) : String :=
  String.mk (s.toList.map Char.toLower)

/-! ## Python values

One closed type for every Python value the subsystem handles: literals
produced by the lexer (`pStr`, `pFloat`, `pBool`), values produced by
coercion (`pInt`), `None`, and the container values entry fields may
hold (`pDict`, `pList`). -/

mutual

inductive PyVal : Type where
  | pNone : PyVal
  | pStr (s : String) : PyVal
  | pInt (n : ℤ) : PyVal
  | pFloat (q : ℚ) : PyVal
  | pBool (b : Bool) : PyVal
  | pDict (entries : PyDict) : PyVal
  | pList (items : PyList) : PyVal
deriving DecidableEq, Repr

/-- A Python dict value (as a key-ordered entry list). -/
inductive PyDict : Type where
  | nil : PyDict
  | cons (k : String) (v : PyVal) (rest : PyDict) : PyDict
deriving DecidableEq, Repr

/-- A Python list value. -/
inductive PyList : Type where
  | nil : PyList
  | cons (v : PyVal) (rest : PyList) : PyList
deriving DecidableEq, Repr

end

/-- Truncation toward zero, the behaviour of Python `int()` on a float. -/
def ratTrunc (q : ℚ) : ℤ :=
  if q < 0 then -((-q).floor) else q.floor

/-- Decimal digit run to a natural number. -/
def digitsVal (ds : List Char) : ℕ :=
  ds.foldl (fun acc c => 10 * acc + (c.toNat - 48)) 0

/-- Value of an unsigned decimal literal `digits [ '.' digits ]`:
integer part plus fraction digits over the matching power of ten. -/
def decToRatPos (s : List Char) : ℚ :=
  let ip := s.takeWhile pyIsDigit
  let rest := s.dropWhile pyIsDigit
  let fp := match rest with
    | '.' :: fs => fs
    | _ => []
  mkRat (digitsVal ip * 10 ^ fp.length + digitsVal fp) (10 ^ fp.length)

/-- Value of the decimal literal consumed by `Lexer.read_number`
(optional leading minus). -/
def decToRat : List Char → ℚ
  | '-' :: s => - decToRatPos s
  | s => decToRatPos s

/-- Python `int(string)`: strip whitespace, optional sign, a nonempty
run of decimal digits; anything else raises `ValueError` (`none`). -/
def pyIntOfString (s : String) : Option ℤ :=
  let cs := (pyStrip s).toList
  let signDigits : ℤ × List Char :=
    match cs with
    | '-' :: rest => (-1, rest)
    | '+' :: rest => (1, rest)
    | rest => (1, rest)
  if signDigits.2 ≠ [] ∧ signDigits.2.all pyIsDigit then
    some (signDigits.1 * (digitsVal signDigits.2 : ℤ))
  else none

/-- Python `float(string)` on the finite-decimal fragment: strip
whitespace, optional sign, digits with at most one dot and at least one
digit; anything else raises `ValueError` (`none`).  The spellings that
CPython maps to IEEE specials (`inf`/`infinity`/`nan`) are
distinguished by `pyFloatParseOfString`, which the coercion policy
uses; on the compiler path (`convert_value`, DEC branch) those
spellings produce a non-raising special float in CPython, conflated
here with the equally non-raising uncoerced fallback — neither path
raises, which is all the compile-path claims state. -/
def pyFloatOfString (s : String) : Option ℚ :=
  let cs := (pyStrip s).toList
  let signDigits : Bool × List Char :=
    match cs with
    | '-' :: rest => (true, rest)
    | '+' :: rest => (false, rest)
    | rest => (false, rest)
  let ds := signDigits.2
  let signed : ℚ → ℚ := fun q => if signDigits.1 then -q else q
  let ip := ds.takeWhile pyIsDigit
  let rest := ds.dropWhile pyIsDigit
  match rest with
  | [] => if ip ≠ [] then some (signed (decToRatPos ds)) else none
  | '.' :: fs =>
    if fs.all pyIsDigit ∧ (ip ≠ [] ∨ fs ≠ []) then
      some (signed (decToRatPos ds))
    else none
  | _ => none

/-- Digits after the decimal point of a rational in `[0, 1)`, up to `k`
of them (used only to render floats as text). -/
def fracDigits : ℚ → ℕ → List Char
  | _, 0 => []
  | q, k + 1 =>
    if q = 0 then []
    else
      let q10 := q * 10
      let d := q10.floor
      Char.ofNat (48 + d.toNat) :: fracDigits (q10 - (d : ℚ)) k

/-- Model of Python `str()` on a float: sign, integer part, `.`,
fraction digits (`"5.0"`, `"18.5"`, ...).  Approximates CPython's
shortest-repr on the finite-decimal fragment; no claim depends on the
exact digits for numbers. -/
def floatRepr (q : ℚ) : String :=
  let sgn := if q < 0 then "-" else ""
  let aq := |q|
  let ip := aq.floor
  let fr := fracDigits (aq - (ip : ℚ)) 17
  sgn ++ toString ip ++ "." ++ (if fr = [] then "0" else String.mk fr)

mutual

/-- Model of Python `str()` on a value.  Container renderings
approximate Python `repr` (they begin with the bracket character,
which is all any branch of the modelled code inspects). -/
def pyStr : PyVal → String
  | .pNone => "None"
  | .pStr s => s
  | .pInt n => toString n
  | .pFloat q => floatRepr q
  | .pBool b => if b then "True" else "False"
  | .pDict l => "\x7b" ++ pyStrDictEntries l ++ "\x7d"
  | .pList l => "[" ++ pyStrListItems l ++ "]"

def pyStrDictEntries : PyDict → String
  | .nil => ""
  | .cons k v rest => k ++ ": " ++ pyStr v ++ ", " ++ pyStrDictEntries rest

def pyStrListItems : PyList → String
  | .nil => ""
  | .cons v rest => pyStr v ++ ", " ++ pyStrListItems rest

end

/-- Python truthiness `bool(value)`. -/
def pyBoolTruthy : PyVal → Bool
  | .pNone => false
  | .pStr s => s != ""
  | .pInt n => decide (n ≠ 0)
  | .pFloat q => decide (q ≠ 0)
  | .pBool b => b
  | .pDict l => decide (l ≠ .nil)
  | .pList l => decide (l ≠ .nil)

/-- Python `int(value)`: `none` models a raised `ValueError`/`TypeError`. -/
def pyIntOfPyVal : PyVal → Option ℤ
  | .pBool b => some (if b then 1 else 0)
  | .pInt n => some n
  | .pFloat q => some (ratTrunc q)
  | .pStr s => pyIntOfString s
  | .pNone => none
  | .pDict _ => none
  | .pList _ => none

/-- Python `float(value)`: `none` models a raised `ValueError`/`TypeError`. -/
def pyFloatOfPyVal : PyVal → Option ℚ
  | .pBool b => some (if b then 1 else 0)
  | .pInt n => some (n : ℚ)
  | .pFloat q => some q
  | .pStr s => pyFloatOfString s
  | .pNone => none
  | .pDict _ => none
  | .pList _ => none

/-! ## Lexer (`filter_parser.Lexer`) -/

/-- Token kinds of `filter_parser.Token`, carrying their values.
(`Token.NULL` is declared in the source but never produced by the
lexer, so it has no constructor here.) -/
inductive Tok : Type where
  | field (s : String) : Tok
  | str (s : String) : Tok
  | num (q : ℚ) : Tok
  | bool (b : Bool) : Tok
  | op (s : String) : Tok
  | logic (s : String) : Tok
  | lparen : Tok
  | rparen : Tok
  | keyword (s : String) : Tok
  | eof : Tok
deriving DecidableEq, Repr

/-- The token-type tag string, as used in the source's error messages. -/
def tokType : Tok → String
  | .field _ => "FIELD"
  | .str _ => "STRING"
  | .num _ => "NUMBER"
  | .bool _ => "BOOLEAN"
  | .op _ => "OPERATOR"
  | .logic _ => "LOGIC"
  | .lparen => "LPAREN"
  | .rparen => "RPAREN"
  | .keyword _ => "KEYWORD"
  | .eof => "EOF"

/-- `Lexer.read_string` after the opening quote: consume until the
matching quote, a backslash taking the next character literally; hitting
the end of input raises "Unterminated string". -/
def readStringAux (quote : Char) (acc : List Char) : List Char → Except String (List Char × List Char)
  | [] => .error "Unterminated string"
  | c :: cs =>
    if c = quote then .ok (acc.reverse, cs)
    else if c = '\\' then
      match cs with
      | [] => .error "Unterminated string"
      | d :: cs2 => readStringAux quote (d :: acc) cs2
    else readStringAux quote (c :: acc) cs

/-- Digit/dot consumption loop of `Lexer.read_number` (the leading
minus is handled by `readNumber`); returns (consumed, rest). -/
def readNumAux (hasDot : Bool) : List Char → List Char × List Char
  | [] => ([], [])
  | c :: cs =>
    if pyIsDigit c then
      let tr := readNumAux hasDot cs
      (c :: tr.1, tr.2)
    else if c = '.' ∧ hasDot = false then
      let tr := readNumAux true cs
      (c :: tr.1, tr.2)
    else ([], c :: cs)

/-- `Lexer.read_number`: an optional minus accepted only as the very
first character, then digits with at most one dot. -/
def readNumber : List Char → List Char × List Char
  | '-' :: cs =>
    let tr := readNumAux false cs
    ('-' :: tr.1, tr.2)
  | cs => readNumAux false cs

/-- Keyword/connective/boolean classification of an identifier
(`Lexer.tokenize`, identifier branch): the lower-cased text is checked
against the logic set, the keyword set, then `true`/`false`; anything
else is a field reference with original casing. -/
def classifyIdent (ident : String) : Tok :=
  let lower := pyLower ident
  if lower = "and" || lower = "or" then .logic lower
  else if lower = "contains" || lower = "startswith" || lower = "endswith" || lower = "is"
      || lower = "not" || lower = "empty" || lower = "null" then .keyword lower
  else if lower = "true" then .bool true
  else if lower = "false" then .bool false
  else .field ident

/-- Operator acceptance (`Lexer.tokenize`, operator branch): the
consumed one- or two-character operator must be in `Lexer.OPERATORS`,
otherwise "Unknown operator" is raised. -/
def opToken (o : String) : Except String Tok :=
  if o = "=" || o = "!=" || o = ">" || o = "<" || o = ">=" || o = "<=" then .ok (.op o)
  else .error ("Unknown operator: " ++ o)

/-- `Lexer.tokenize`, one scan step per recursive call.  `fuel` is a
recursion budget: every step consumes at least one character, so
`length + 1` always suffices (the budget mirrors the finite call
stack / loop bound of the Python implementation). -/
def tokenizeAux : ℕ → List Char → Except String (List Tok)
  | 0, _ => .error "Recursion limit exceeded"
  | _ + 1, [] => .ok [.eof]
  | fuel + 1, c :: cs =>
    if pyIsSpace c then tokenizeAux fuel cs
    else if c = '(' then (tokenizeAux fuel cs).map (fun ts => .lparen :: ts)
    else if c = ')' then (tokenizeAux fuel cs).map (fun ts => .rparen :: ts)
    else if c = '"' || c = '\'' then
      match readStringAux c [] cs with
      | .error e => .error e
      | .ok sr => (tokenizeAux fuel sr.2).map (fun ts => .str (String.mk sr.1) :: ts)
    else if pyIsDigit c || (c = '-' && (match cs with | d :: _ => pyIsDigit d | [] => false)) then
      let nr := readNumber (c :: cs)
      (tokenizeAux fuel nr.2).map (fun ts => .num (decToRat nr.1) :: ts)
    else if c = '=' || c = '!' || c = '>' || c = '<' then
      match cs with
      | '=' :: cs2 =>
        match opToken (String.mk [c, '=']) with
        | .error e => .error e
        | .ok t => (tokenizeAux fuel cs2).map (fun ts => t :: ts)
      | _ =>
        match opToken (String.mk [c]) with
        | .error e => .error e
        | .ok t => (tokenizeAux fuel cs).map (fun ts => t :: ts)
    else if pyIsAlpha c || c = '_' then
      let ident := (c :: cs).takeWhile isIdentChar
      let rest := (c :: cs).dropWhile isIdentChar
      (tokenizeAux fuel rest).map (fun ts => classifyIdent (String.mk ident) :: ts)
    else .error ("Unexpected character: " ++ String.mk [c])

/-- `Lexer(text).tokenize()`. -/
def tokenizeStr (s : String) : Except String (List Tok) :=
  tokenizeAux (s.length + 1) s.toList

/-! ## AST and parser (`filter_parser.Parser`)

The source builds AST nodes as dicts tagged by a `"type"` string
(`"empty" | "comparison" | "and" | "or"`); here they are the four
constructors of a closed sum.  `Comparison.operator` is the operator
string stored by the source (`"="`, `"!="`, ..., `"contains"`,
`"is_null"`, ...), and `Comparison.value` is `none` exactly where the
source stores Python `None`. -/

inductive Ast : Type where
  | empty : Ast
  | comparison (field : String) (operator : String) (value : Option PyVal) : Ast
  | and (left right : Ast) : Ast
  | or (left right : Ast) : Ast
deriving DecidableEq, Repr

/-- `Parser.current()`: the next token, `EOF` past the end. -/
def curTok : List Tok → Tok
  | [] => .eof
  | t :: _ => t

/-- `Parser.parse_value`: accept one string/number/boolean token. -/
def parseValue (toks : List Tok) : Except String (PyVal × List Tok) :=
  match toks with
  | .str s :: rest => .ok (.pStr s, rest)
  | .num q :: rest => .ok (.pFloat q, rest)
  | .bool b :: rest => .ok (.pBool b, rest)
  | other => .error ("Expected value, got " ++ tokType (curTok other))

/-- `Parser.parse_comparison`: dispatch on the token after a field
reference. -/
def parseComparison (field : String) (toks : List Tok) : Except String (Ast × List Tok) :=
  match toks with
  | .op o :: rest =>
    (parseValue rest).map (fun vr => (.comparison field o (some vr.1), vr.2))
  | .keyword k :: rest =>
    if k = "contains" || k = "startswith" || k = "endswith" then
      (parseValue rest).map (fun vr => (.comparison field k (some vr.1), vr.2))
    else if k = "is" then
      match rest with
      | .keyword "not" :: rest2 =>
        match rest2 with
        | .keyword "null" :: rest3 => .ok (.comparison field "is_not_null" none, rest3)
        | .keyword "empty" :: rest3 => .ok (.comparison field "is_not_empty" none, rest3)
        | _ => .error "Expected 'null' or 'empty' after 'is not'"
      | .keyword "null" :: rest2 => .ok (.comparison field "is_null" none, rest2)
      | .keyword "empty" :: rest2 => .ok (.comparison field "is_empty" none, rest2)
      | _ => .error "Expected 'null', 'not', or 'empty' after 'is'"
    else .error ("Expected operator after field '" ++ field ++ "'")
  | _ => .error ("Expected operator after field '" ++ field ++ "'")

mutual

/-- `Parser.parse_primary`: parenthesised sub-expression or field
comparison. -/
def parsePrimary : ℕ → List Tok → Except String (Ast × List Tok)
  | 0, _ => .error "Recursion limit exceeded"
  | fuel + 1, toks =>
    match toks with
    | .lparen :: rest =>
      match parseOr fuel rest with
      | .error e => .error e
      | .ok er =>
        match er.2 with
        | .rparen :: rest3 => .ok (er.1, rest3)
        | other => .error ("Expected RPAREN, got " ++ tokType (curTok other))
    | .field f :: rest => parseComparison f rest
    | other => .error ("Unexpected token: " ++ tokType (curTok other))

/-- `Parser.parse_and`, entry: one primary then the AND loop. -/
def parseAnd : ℕ → List Tok → Except String (Ast × List Tok)
  | 0, _ => .error "Recursion limit exceeded"
  | fuel + 1, toks =>
    match parsePrimary fuel toks with
    | .error e => .error e
    | .ok lr => parseAndLoop fuel lr.1 lr.2

/-- `Parser.parse_and`, `while current == (LOGIC, "and")` loop:
left-associative folding. -/
def parseAndLoop : ℕ → Ast → List Tok → Except String (Ast × List Tok)
  | 0, _, _ => .error "Recursion limit exceeded"
  | fuel + 1, left, toks =>
    match toks with
    | .logic "and" :: rest =>
      match parsePrimary fuel rest with
      | .error e => .error e
      | .ok rr => parseAndLoop fuel (.and left rr.1) rr.2
    | _ => .ok (left, toks)

/-- `Parser.parse_or`, entry: one AND-chain then the OR loop. -/
def parseOr : ℕ → List Tok → Except String (Ast × List Tok)
  | 0, _ => .error "Recursion limit exceeded"
  | fuel + 1, toks =>
    match parseAnd fuel toks with
    | .error e => .error e
    | .ok lr => parseOrLoop fuel lr.1 lr.2

/-- `Parser.parse_or`, `while current == (LOGIC, "or")` loop:
left-associative folding. -/
def parseOrLoop : ℕ → Ast → List Tok → Except String (Ast × List Tok)
  | 0, _, _ => .error "Recursion limit exceeded"
  | fuel + 1, left, toks =>
    match toks with
    | .logic "or" :: rest =>
      match parseAnd fuel rest with
      | .error e => .error e
      | .ok rr => parseOrLoop fuel (.or left rr.1) rr.2
    | _ => .ok (left, toks)

end

/-- `Parser.parse`: empty stream parses to `Empty`; otherwise one OR
expression which must consume everything up to `EOF`.  The recursion
budget is linear in the token count; every recursive step consumes at
least one token, so it always suffices. -/
def parseTokens (toks : List Tok) : Except String Ast :=
  if curTok toks = .eof then .ok .empty
  else
    match parseOr (4 * toks.length + 8) toks with
    | .error e => .error e
    | .ok ar =>
      if curTok ar.2 = .eof then .ok ar.1
      else .error ("Unexpected token: " ++ tokType (curTok ar.2))

/-- `filter_parser.parse_filter`: blank (or whitespace-only) input
short-circuits to `Empty`; otherwise lex then parse. -/
def parseFilter (expression : String) : Except String Ast :=
  if expression = "" || pyStrip expression = "" then .ok .empty
  else
    match tokenizeStr expression with
    | .error e => .error e
    | .ok toks => parseTokens toks

/-! ## Query compiler (`filter_parser.ast_to_mongo_query`) -/

/-- A MongoDB query fragment, modelling the Python dict the compiler
returns: JSON-like objects, arrays and leaf values (`mVal none` is
Python `None`). -/
inductive MQ : Type where
  | mObj (fields : List (String × MQ)) : MQ
  | mArr (items : List MQ) : MQ
  | mVal (v : Option PyVal) : MQ
deriving Repr

/-- `field_types.get(field, "STR")` with the field-type map as an
association list. -/
def lookupType (fieldTypes : List (String × String)) (field : String) : String :=
  match fieldTypes.find? (fun p => p.1 = field) with
  | some p => p.2
  | none => "STR"

/-- `ast_to_mongo_query.convert_value`: coerce a literal using the
field's declared type; a raised `ValueError`/`TypeError` from
`int`/`float` (the `none` arm) is caught and the original value
returned. -/
def convertValue (fieldTypes : List (String × String)) (field : String) (value : Option PyVal) :
    Option PyVal :=
  let ftype := lookupType fieldTypes field
  match value with
  | none => none
  | some v =>
    if ftype = "INT" then
      match pyIntOfPyVal v with
      | some n => some (.pInt n)
      | none => some v
    else if ftype = "DEC" then
      match pyFloatOfPyVal v with
      | some q => some (.pFloat q)
      | none => some v
    else if ftype = "BOOL" then
      match v with
      | .pBool b => some (.pBool b)
      | .pStr s => some (.pBool (pyLower s = "true" || pyLower s = "1" || pyLower s = "yes"))
      | _ => some (.pBool (pyBoolTruthy v))
    else some v

/-- Characters escaped by CPython's `re.escape` (Python ≥ 3.7): each is
prefixed with a backslash, everything else passes through. -/
def reSpecialChars : List Char :=
  ['(', ')', '[', ']', '\x7b', '\x7d', '?', '*', '+', '-', '|', '^', '$', '\\', '.', '&',
   '~', '#', ' ', '\t', '\n', '\r', '\x0b', '\x0c']

/-- Python `re.escape`. -/
def reEscape (s : String) : String :=
  String.mk (s.toList.foldr (fun c acc => if c ∈ reSpecialChars then '\\' :: c :: acc else c :: acc) [])

/-- `str(value)` as applied by the regex branches (the converted value
there may be Python `None`). -/
def pyStrOpt : Option PyVal → String
  | none => "None"
  | some v => pyStr v

/-- The `"values."`-namespaced storage key. -/
def mongoKey (field : String) : String := "values." ++ field

/-- `ast_to_mongo_query.build_query`.  Total by construction, exactly
as the source: the only fallible operations are inside
`convert_value`'s `try`, and unknown operators fall through to `{}`. -/
def buildQuery (fieldTypes : List (String × String)) : Ast → MQ
  | .empty => .mObj []
  | .and l r => .mObj [("$and", .mArr [buildQuery fieldTypes l, buildQuery fieldTypes r])]
  | .or l r => .mObj [("$or", .mArr [buildQuery fieldTypes l, buildQuery fieldTypes r])]
  | .comparison field o value =>
    let v := convertValue fieldTypes field value
    let key := mongoKey field
    if o = "=" then .mObj [(key, .mVal v)]
    else if o = "!=" then .mObj [(key, .mObj [("$ne", .mVal v)])]
    else if o = ">" then .mObj [(key, .mObj [("$gt", .mVal v)])]
    else if o = "<" then .mObj [(key, .mObj [("$lt", .mVal v)])]
    else if o = ">=" then .mObj [(key, .mObj [("$gte", .mVal v)])]
    else if o = "<=" then .mObj [(key, .mObj [("$lte", .mVal v)])]
    else if o = "contains" then
      .mObj [(key, .mObj [("$regex", .mVal (some (.pStr (reEscape (pyStrOpt v))))),
                          ("$options", .mVal (some (.pStr "i")))])]
    else if o = "startswith" then
      .mObj [(key, .mObj [("$regex", .mVal (some (.pStr ("^" ++ reEscape (pyStrOpt v))))),
                          ("$options", .mVal (some (.pStr "i")))])]
    else if o = "endswith" then
      .mObj [(key, .mObj [("$regex", .mVal (some (.pStr (reEscape (pyStrOpt v) ++ "$")))),
                          ("$options", .mVal (some (.pStr "i")))])]
    else if o = "is_null" then .mObj [(key, .mVal none)]
    else if o = "is_not_null" then .mObj [(key, .mObj [("$ne", .mVal none)])]
    else if o = "is_empty" then
      .mObj [("$or", .mArr [.mObj [(key, .mVal none)],
                            .mObj [(key, .mVal (some (.pStr "")))],
                            .mObj [(key, .mObj [("$exists", .mVal (some (.pBool false)))])]])]
    else if o = "is_not_empty" then
      .mObj [("$and", .mArr [.mObj [(key, .mObj [("$ne", .mVal none)])],
                             .mObj [(key, .mObj [("$ne", .mVal (some (.pStr "")))])],
                             .mObj [(key, .mObj [("$exists", .mVal (some (.pBool true)))])]])]
    else .mObj []

/-- `filter_parser.ast_to_mongo_query`. -/
def astToMongoQuery (ast : Ast) (fieldTypes : List (String × String)) : MQ :=
  buildQuery fieldTypes ast

/-- `filter_parser.filter_entries`: parse, then compile; only the parse
step can fail. -/
def filterEntries (expression : String) (fieldTypes : List (String × String)) :
    Except String MQ :=
  (parseFilter expression).map (fun ast => astToMongoQuery ast fieldTypes)

/-! ## Field-type coercion policy (`fields.can_convert_value`) -/

/-- `re.match(r'^\d{4}-\d{2}-\d{2}', s)`: a leading `YYYY-MM-DD` shape
(trailing text allowed, calendar validity not checked). -/
def dateLeadMatch (s : String) : Bool :=
  match s.toList with
  | y1 :: y2 :: y3 :: y4 :: '-' :: m1 :: m2 :: '-' :: d1 :: d2 :: _ =>
    pyIsDigit y1 && pyIsDigit y2 && pyIsDigit y3 && pyIsDigit y4 &&
    pyIsDigit m1 && pyIsDigit m2 && pyIsDigit d1 && pyIsDigit d2
  | _ => false

/-- Outcome classes of Python `float(string)` as used by the coercion
policy: a finite value, an IEEE infinity, `nan`, or a raised
`ValueError`. -/
inductive PyFloatParse : Type where
  | finite (q : ℚ) : PyFloatParse
  | inf (neg : Bool) : PyFloatParse
  | nan : PyFloatParse
  | err : PyFloatParse
deriving DecidableEq, Repr

/-- Python `float(string)` for the coercion policy, distinguishing
every outcome class CPython produces: the case-insensitive spellings
`inf`/`infinity` (optionally signed) give an IEEE infinity, `nan` gives
a NaN, a finite decimal gives its value, anything else raises
`ValueError` (`err`).  Exponent spellings stay outside the modelled
fragment; the overflowing ones such as `1e400` behave in CPython like
the `inf` spelling modelled here. -/
def pyFloatParseOfString (s : String) : PyFloatParse :=
  let cs := (pyStrip s).toList
  let signDigits : Bool × List Char :=
    match cs with
    | '-' :: rest => (true, rest)
    | '+' :: rest => (false, rest)
    | rest => (false, rest)
  let lowerDs := signDigits.2.map Char.toLower
  if lowerDs = "inf".toList ∨ lowerDs = "infinity".toList then .inf signDigits.1
  else if lowerDs = "nan".toList then .nan
  else
    match pyFloatOfString s with
    | some q => .finite q
    | none => .err

/-- A coerced value returned by the policy: an ordinary (finite) Python
value, or an IEEE special float (`inf`, `-inf`, `nan`), which the
rational `PyVal` float model cannot carry. -/
inductive Coerced : Type where
  | val (v : PyVal) : Coerced
  | specialFloat (s : String) : Coerced
deriving DecidableEq, Repr

/-- Lift a coercion result whose value is an ordinary `PyVal` into the
`Coerced` domain. -/
def liftCoerced (r : Bool × Option PyVal) : Bool × Option Coerced :=
  (r.1, r.2.map Coerced.val)

/-- `can_convert_value`, `to_type == 'INT'` branch: bool → 0/1; int
passes; float rejected when it has a fractional part; otherwise
stringify and compute `int(float(str_val))`.  `float()` raising
`ValueError`, or `int()` raising `ValueError` on a NaN, is caught by
the outer `except (ValueError, TypeError)` — `(false, none)`.  But
`int()` on an infinity raises `OverflowError`, which that `except`
does NOT catch: the exception propagates, modelled as `.error`.
(An infinite float *value* as input triggers the same uncaught
`OverflowError` in CPython; `PyVal`'s floats are rationals, so that
input stays outside the value model.) -/
def canConvertINT (value : PyVal) : Except String (Bool × Option PyVal) :=
  match value with
  | .pBool b => .ok (true, some (.pInt (if b then 1 else 0)))
  | .pInt n => .ok (true, some (.pInt n))
  | .pFloat q =>
    let iv := ratTrunc q
    if q ≠ (iv : ℚ) then .ok (false, none) else .ok (true, some (.pInt iv))
  | _ =>
    let sv := pyStrip (pyStr value)
    if sv = "" then .ok (true, none)
    else
      match pyFloatParseOfString sv with
      | .finite q =>
        let iv := ratTrunc q
        if q ≠ (iv : ℚ) then .ok (false, none) else .ok (true, some (.pInt iv))
      | .inf _ => .error "OverflowError: cannot convert float infinity to integer"
      | .nan => .ok (false, none)
      | .err => .ok (false, none)

/-- `can_convert_value`, `to_type == 'DEC'` branch: never raises — an
`inf`/`nan` parse is a *successful* conversion in CPython, returning
the IEEE special as the coerced value. -/
def canConvertDEC (value : PyVal) : Bool × Option Coerced :=
  match value with
  | .pBool b => (true, some (.val (.pFloat (if b then 1 else 0))))
  | .pInt n => (true, some (.val (.pFloat (n : ℚ))))
  | .pFloat q => (true, some (.val (.pFloat q)))
  | _ =>
    let sv := pyStrip (pyStr value)
    if sv = "" then (true, none)
    else
      match pyFloatParseOfString sv with
      | .finite q => (true, some (.val (.pFloat q)))
      | .inf neg => (true, some (.specialFloat (if neg then "-inf" else "inf")))
      | .nan => (true, some (.specialFloat "nan"))
      | .err => (false, none)

/-- `can_convert_value`, `to_type == 'BOOL'` branch. -/
def canConvertBOOL (value : PyVal) : Bool × Option PyVal :=
  match value with
  | .pBool b => (true, some (.pBool b))
  | .pInt n => (true, some (.pBool (decide (n ≠ 0))))
  | .pFloat q => (true, some (.pBool (decide (q ≠ 0))))
  | _ =>
    let sv := pyStrip (pyLower (pyStr value))
    if sv = "true" ∨ sv = "1" ∨ sv = "yes" then (true, some (.pBool true))
    else if sv = "false" ∨ sv = "0" ∨ sv = "no" ∨ sv = "" then (true, some (.pBool false))
    else (false, none)

/-- `can_convert_value`, `to_type == 'DATE'` branch. -/
def canConvertDATE (value : PyVal) : Bool × Option PyVal :=
  let sv := pyStrip (pyStr value)
  if sv = "" then (true, none)
  else if dateLeadMatch sv then (true, some (.pStr sv)) else (false, none)

/-- `can_convert_value`, `to_type == 'EMAIL'` branch. -/
def canConvertEMAIL (value : PyVal) : Bool × Option PyVal :=
  let sv := pyStrip (pyStr value)
  if sv = "" then (true, none)
  else if sv.toList.contains '@' && sv.toList.contains '.' then (true, some (.pStr sv))
  else (false, none)

/-- `can_convert_value`, `to_type == 'URL'` branch. -/
def canConvertURL (value : PyVal) : Bool × Option PyVal :=
  let sv := pyStrip (pyStr value)
  if sv = "" then (true, none)
  else if ("http://".toList.isPrefixOf sv.toList) || ("https://".toList.isPrefixOf sv.toList) then
    (true, some (.pStr sv))
  else (false, none)

/-- `fields.can_convert_value(value, from_type, to_type)`: decide
whether a value converts to the target type without data loss, and the
converted value.  The body sits in a `try/except (ValueError,
TypeError)`: a caught exception is the `(false, none)` return, while an
exception outside that tuple — the `OverflowError` from `int()` on an
infinity in the INT branch — propagates to the caller, modelled as
`.error`.  Each `to_type` `elif` branch of the source is one of the
`canConvertXXX` helpers above.  (The `from_type` argument is accepted
and ignored, exactly as in the source.) -/
def canConvertValue (value : PyVal) (fromType toType : String) :
    Except String (Bool × Option Coerced) :=
  if value = .pNone ∨ value = .pStr "" then .ok (true, none)
  else if toType = "STR" then .ok (true, some (.val (.pStr (pyStr value))))
  else if toType = "INT" then (canConvertINT value).map liftCoerced
  else if toType = "DEC" then .ok (canConvertDEC value)
  else if toType = "BOOL" then .ok (liftCoerced (canConvertBOOL value))
  else if toType = "DATE" then .ok (liftCoerced (canConvertDATE value))
  else if toType = "EMAIL" then .ok (liftCoerced (canConvertEMAIL value))
  else if toType = "URL" then .ok (liftCoerced (canConvertURL value))
  else if toType = "DICT" then
    match value with
    | .pDict _ => .ok (true, some (.val value))
    | _ => .ok (false, none)
  else if toType = "LIST" then
    match value with
    | .pList _ => .ok (true, some (.val value))
    | _ => .ok (false, none)
  else .ok (false, none)

/-! ## Stated properties -/

/-- The four nullary operators of the AST contract. -/
def nullaryOp (o : String) : Bool :=
  o = "is_null" || o = "is_not_null" || o = "is_empty" || o = "is_not_empty"

/-- Values the lexer can produce as literals: string, number, boolean. -/
def isLexLiteral : PyVal → Bool
  | .pStr _ => true
  | .pFloat _ => true
  | .pBool _ => true
  | _ => false

/-- The AST invariant of the specification: a comparison's value is
`none` exactly when its operator is nullary, and otherwise is a
string/number/boolean literal. -/
def astInvB : Ast → Bool
  | .empty => true
  | .comparison _ o v =>
    (match v with
     | none => nullaryOp o
     | some x => !nullaryOp o && isLexLiteral x)
  | .and l r => astInvB l && astInvB r
  | .or l r => astInvB l && astInvB r

/-- Well-formedness of lexer output: operator, keyword and connective
tokens only carry the members of `Lexer.OPERATORS`, `Lexer.KEYWORDS`
and `Lexer.LOGIC`. -/
def tokWF : Tok → Bool
  | .op o => o = "=" || o = "!=" || o = ">" || o = "<" || o = ">=" || o = "<="
  | .keyword k => k = "contains" || k = "startswith" || k = "endswith" || k = "is"
      || k = "not" || k = "empty" || k = "null"
  | .logic l => l = "and" || l = "or"
  | _ => true

/-- The lower-cased spellings captured as non-field tokens: logic
connectives, keywords and the boolean literals. -/
def isReservedLower (s : String) : Bool :=
  s = "and" || s = "or" || s = "contains" || s = "startswith" || s = "endswith" || s = "is"
    || s = "not" || s = "empty" || s = "null" || s = "true" || s = "false"

/-- All tokens of a list are well-formed. -/
def wfToks (ts : List Tok) : Prop := ∀ t ∈ ts, tokWF t = true

instance {ε α : Type} [DecidableEq ε] [DecidableEq α] : DecidableEq (Except ε α) := fun x y =>
  match x, y with
  | .error a, .error b =>
    if h : a = b then .isTrue (by rw [h]) else .isFalse (fun hh => h (Except.error.inj hh))
  | .ok a, .ok b =>
    if h : a = b then .isTrue (by rw [h]) else .isFalse (fun hh => h (Except.ok.inj hh))
  | .error _, .ok _ => .isFalse (fun hh => Except.noConfusion hh)
  | .ok _, .error _ => .isFalse (fun hh => Except.noConfusion hh)

/-! ## Claim theorems -/

/-- C1: `parse('a=1 AND b=2 OR c=3 AND d=4')` produces
`Or{And{a=1,b=2}, And{c=3,d=4}}` (AND binds tighter than OR), and
repeated connectives at one level associate to the left
(`a=1 OR b=2 OR c=3` → `Or{Or{a,b},c}`, likewise for AND). -/
theorem claim_C1 :
    parseFilter "a=1 AND b=2 OR c=3 AND d=4" =
      .ok (.or
        (.and (.comparison "a" "=" (some (.pFloat 1))) (.comparison "b" "=" (some (.pFloat 2))))
        (.and (.comparison "c" "=" (some (.pFloat 3))) (.comparison "d" "=" (some (.pFloat 4)))))
    ∧ parseFilter "a=1 OR b=2 OR c=3" =
      .ok (.or
        (.or (.comparison "a" "=" (some (.pFloat 1))) (.comparison "b" "=" (some (.pFloat 2))))
        (.comparison "c" "=" (some (.pFloat 3))))
    ∧ parseFilter "a=1 AND b=2 AND c=3" =
      .ok (.and
        (.and (.comparison "a" "=" (some (.pFloat 1))) (.comparison "b" "=" (some (.pFloat 2))))
        (.comparison "c" "=" (some (.pFloat 3)))) := by
  refine ⟨by decide, by decide, by decide⟩

/-- C2: `parse('price >= 9.99')` yields the comparison node with field
`"price"`, the `>=` operator (whose compilation is the `$gte` range
predicate, i.e. the spec's `gte` enum member), and the number `9.99`
(numbers are modelled as exact rationals), not the string `"9.99"`. -/
theorem claim_C2 :
    parseFilter "price >= 9.99" =
      .ok (.comparison "price" ">=" (some (.pFloat (mkRat 999 100))))
    ∧ astToMongoQuery (.comparison "price" ">=" (some (.pFloat (mkRat 999 100)))) [] =
      .mObj [("values.price", .mObj [("$gte", .mVal (some (.pFloat (mkRat 999 100))))])]
    ∧ parseFilter "price >= 9.99" ≠
      .ok (.comparison "price" ">=" (some (.pStr "9.99"))) := by
  refine ⟨by decide, by rfl, by decide⟩

/-- C4 (counterexample): with `{age: INT}`, compiling `age = 18.5`
embeds the silently truncated integer `18`, not the original float
`18.5` uncoerced as the claim states — Python `int(18.5)` truncates and
raises nothing. -/
theorem claim_C4_counterexample :
    filterEntries "age = 18.5" [("age", "INT")] =
      .ok (.mObj [("values.age", .mVal (some (.pInt 18)))])
    ∧ (MQ.mObj [("values.age", .mVal (some (.pInt 18)))]) ≠
      (MQ.mObj [("values.age", .mVal (some (.pFloat (mkRat 37 2))))]) := by
  refine ⟨by rfl, by simp⟩

/-- C4 (amended): on an INT field, a bare float literal always coerces
by truncation toward zero (Python `int()` semantics) and the truncated
integer is embedded; the original literal survives uncoerced only when
`int()` raises, e.g. for the quoted string literal `"18.5"`. -/
theorem claim_C4 :
    (∀ (field : String) (q : ℚ),
      astToMongoQuery (.comparison field "=" (some (.pFloat q))) [(field, "INT")] =
        .mObj [(mongoKey field, .mVal (some (.pInt (ratTrunc q))))])
    ∧ filterEntries "age = \"18.5\"" [("age", "INT")] =
      .ok (.mObj [("values.age", .mVal (some (.pStr "18.5")))]) := by
  constructor
  · intro field q
    simp [astToMongoQuery, buildQuery, convertValue, lookupType, pyIntOfPyVal, List.find?]
  · rfl

set_option maxHeartbeats 4000000 in
theorem canConvertINT_fail (v : PyVal) (r : Bool × Option PyVal) :
    canConvertINT v = .ok r → r.1 = false → r.2 = none := by
  intro h hf
  rcases r with ⟨ok, c⟩
  cases v <;> simp only [canConvertINT] at h
  all_goals try split_ifs at h
  all_goals try split at h
  all_goals try split_ifs at h
  all_goals
    first
    | exact Except.noConfusion h
    | (injection h with h2
       injection h2 with hb hc
       subst hb
       subst hc
       first
       | exact Bool.noConfusion hf
       | rfl)

set_option maxHeartbeats 4000000 in
theorem canConvertINT_error (v : PyVal) (e : String) :
    canConvertINT v = .error e →
    e = "OverflowError: cannot convert float infinity to integer" := by
  intro h
  cases v <;> simp only [canConvertINT] at h
  all_goals try split_ifs at h
  all_goals try split at h
  all_goals try split_ifs at h
  all_goals
    first
    | exact Except.noConfusion h
    | (injection h with h2; exact h2.symm)

theorem canConvertDEC_fail (v : PyVal) :
    (canConvertDEC v).1 = false → (canConvertDEC v).2 = none := by
  cases v <;> simp only [canConvertDEC] <;> try simp
  all_goals split_ifs <;> try simp
  all_goals
    rcases pyFloatParseOfString (pyStrip (pyStr _)) with q | neg | _ | _ <;> simp

theorem liftCoerced_fail (r : Bool × Option PyVal) (h : r.1 = false → r.2 = none)
    (hf : (liftCoerced r).1 = false) : (liftCoerced r).2 = none := by
  have h2 := h hf
  simp [liftCoerced, h2]

theorem canConvertBOOL_fail (v : PyVal) :
    (canConvertBOOL v).1 = false → (canConvertBOOL v).2 = none := by
  cases v <;> simp only [canConvertBOOL] <;> try simp
  all_goals split_ifs <;> simp

theorem canConvertDATE_fail (v : PyVal) :
    (canConvertDATE v).1 = false → (canConvertDATE v).2 = none := by
  simp only [canConvertDATE]
  split_ifs <;> simp

theorem canConvertEMAIL_fail (v : PyVal) :
    (canConvertEMAIL v).1 = false → (canConvertEMAIL v).2 = none := by
  simp only [canConvertEMAIL]
  split_ifs <;> simp

theorem canConvertURL_fail (v : PyVal) :
    (canConvertURL v).1 = false → (canConvertURL v).2 = none := by
  simp only [canConvertURL]
  split_ifs <;> simp

/-- C5 (counterexample): `can_convert_value` is NOT total — on the
string input `"inf"` with target type INT, `float(str_val)` succeeds
(an IEEE infinity) and `int()` then raises `OverflowError`, which the
`except (ValueError, TypeError)` does not catch: the exception
propagates instead of an `(ok, coerced)` pair being returned. -/
theorem claim_C5_counterexample :
    canConvertValue (.pStr "inf") "STR" "INT" =
      .error "OverflowError: cannot convert float infinity to integer" := by
  decide

set_option maxHeartbeats 2000000 in
/-- C5 (amended): `can_convert_value` is total except for one
exception path: whenever it raises, the target type is INT and the
exception is the `OverflowError` from `int()` on an infinite `float()`
result (e.g. input `"inf"`; likewise CPython's overflowing exponent
spellings such as `"1e400"`, and an infinite float value, both outside
the modelled fragment).  On every input on which it returns, the
result is an `(ok, coerced-or-none)` pair, and whenever it reports
failure the coerced component is `none`. -/
theorem claim_C5 :
    (∀ (value : PyVal) (fromType toType : String) (r : Bool × Option Coerced),
      canConvertValue value fromType toType = .ok r → r.1 = false → r.2 = none)
    ∧ (∀ (value : PyVal) (fromType toType : String) (e : String),
      canConvertValue value fromType toType = .error e →
        toType = "INT" ∧ e = "OverflowError: cannot convert float infinity to integer") := by
  constructor
  · intro v ft tt r h hf
    unfold canConvertValue at h
    split_ifs at h
    · injection h with h2; subst h2; exact Bool.noConfusion hf
    · injection h with h2; subst h2; exact Bool.noConfusion hf
    · cases hi : canConvertINT v with
      | error e => rw [hi] at h; exact Except.noConfusion h
      | ok p =>
        rw [hi] at h
        simp only [Except.map, Except.ok.injEq] at h
        subst h
        exact liftCoerced_fail p (canConvertINT_fail v p hi) hf
    · injection h with h2
      subst h2
      exact canConvertDEC_fail v hf
    · injection h with h2
      subst h2
      exact liftCoerced_fail _ (canConvertBOOL_fail v) hf
    · injection h with h2
      subst h2
      exact liftCoerced_fail _ (canConvertDATE_fail v) hf
    · injection h with h2
      subst h2
      exact liftCoerced_fail _ (canConvertEMAIL_fail v) hf
    · injection h with h2
      subst h2
      exact liftCoerced_fail _ (canConvertURL_fail v) hf
    · cases v <;> (injection h with h2; subst h2; first | exact Bool.noConfusion hf | rfl)
    · cases v <;> (injection h with h2; subst h2; first | exact Bool.noConfusion hf | rfl)
    · injection h with h2; subst h2; rfl
  · intro v ft tt e h
    unfold canConvertValue at h
    split_ifs at h with h1 h2 h3 <;> try exact Except.noConfusion h
    · cases hi : canConvertINT v with
      | error e2 =>
        rw [hi] at h
        simp only [Except.map] at h
        injection h with h2
        exact ⟨h3, h2 ▸ canConvertINT_error v e2 hi⟩
      | ok p =>
        rw [hi] at h
        simp only [Except.map] at h
        exact Except.noConfusion h
    all_goals try (cases v <;> exact Except.noConfusion h)

/-- C5 witness: a non-numeric string fails INT coercion by a caught
`ValueError`, returning the pair `(false, none)`. -/
theorem claim_C5_witness :
    canConvertValue (.pStr "abc") "STR" "INT" = .ok (false, none)
    ∧ ((false, none) : Bool × Option Coerced).2 = none :=
  ⟨by decide, claim_C5.1 (.pStr "abc") "STR" "INT" (false, none) (by decide) rfl⟩

/-- C6: `contains`/`startswith`/`endswith` compile to a case-insensitive
(`$options: "i"`) regex predicate whose pattern is the regex-escaped
stringification of the (type-coerced) literal, `startswith` prefixed
with the `^` anchor, `endswith` suffixed with the `$` anchor, `contains`
unanchored; with no field-type map the coercion is the identity, so the
pattern is exactly the escaped literal, and escaping neutralises regex
metacharacters such as `.` and `*`. -/
theorem claim_C6 :
    (∀ (fieldTypes : List (String × String)) (field : String) (v : PyVal),
      astToMongoQuery (.comparison field "contains" (some v)) fieldTypes =
        .mObj [(mongoKey field, .mObj
          [("$regex", .mVal (some (.pStr (reEscape (pyStrOpt (convertValue fieldTypes field (some v))))))),
           ("$options", .mVal (some (.pStr "i")))])]
      ∧ astToMongoQuery (.comparison field "startswith" (some v)) fieldTypes =
        .mObj [(mongoKey field, .mObj
          [("$regex", .mVal (some (.pStr ("^" ++ reEscape (pyStrOpt (convertValue fieldTypes field (some v))))))),
           ("$options", .mVal (some (.pStr "i")))])]
      ∧ astToMongoQuery (.comparison field "endswith" (some v)) fieldTypes =
        .mObj [(mongoKey field, .mObj
          [("$regex", .mVal (some (.pStr (reEscape (pyStrOpt (convertValue fieldTypes field (some v))) ++ "$")))),
           ("$options", .mVal (some (.pStr "i")))])])
    ∧ (∀ (field : String) (v : PyVal), convertValue [] field (some v) = some v)
    ∧ reEscape "a.b*c" = "a\\.b\\*c" := by
  refine ⟨fun fieldTypes field v => ⟨rfl, rfl, rfl⟩, fun field v => rfl, by decide⟩

/-- C7: the blank filter round-trip — parsing the empty or a
whitespace-only expression yields the `Empty` node, and compiling
`Empty` yields `{}`, MongoDB's trivial match-everything predicate. -/
theorem claim_C7 :
    parseFilter "" = .ok .empty
    ∧ (∀ s : String, s.toList.all pyIsSpace = true → parseFilter s = .ok .empty)
    ∧ (∀ fieldTypes, astToMongoQuery .empty fieldTypes = .mObj []) := by
  refine ⟨by rfl, ?_, fun fieldTypes => rfl⟩
  intro s hs
  have hnil : List.dropWhile pyIsSpace s.data = [] := by
    rw [List.dropWhile_eq_nil_iff]
    intro x hx
    exact List.all_eq_true.mp hs x hx
  have hstrip : pyStrip s = "" := by
    simp only [pyStrip, String.toList, hnil, List.reverse_nil, List.dropWhile_nil]
  simp [parseFilter, hstrip]

/-- C7 witness: a two-space expression parses to `Empty`. -/
theorem claim_C7_witness :
    ("  ").toList.all pyIsSpace = true ∧ parseFilter "  " = .ok .empty :=
  ⟨by decide, claim_C7.2.1 "  " (by decide)⟩

/-- An identifier whose lower-casing is not a reserved spelling
classifies as a field token with its original casing. -/
theorem classifyIdent_field (s : String) (h : isReservedLower (pyLower s) = false) :
    classifyIdent s = .field s := by
  unfold classifyIdent
  simp only [isReservedLower, Bool.or_eq_false_iff, decide_eq_false_iff_not] at h
  dsimp only
  split_ifs with h1 h2 h3 h4 <;> simp_all

/-- The first character surviving `dropWhile p` fails `p`. -/
theorem head_dropWhile_false (p : Char → Bool) :
    ∀ (l : List Char) (d : Char), (l.dropWhile p).head? = some d → p d = false := by
  intro l
  induction l with
  | nil => intro d h; simp at h
  | cons a t ih =>
    intro d h
    rw [List.dropWhile_cons] at h
    by_cases hp : p a = true
    · rw [if_pos hp] at h
      exact ih d h
    · rw [if_neg hp] at h
      simp only [List.head?_cons, Option.some.injEq] at h
      subst h
      exact Bool.not_eq_true _ ▸ hp

/-- C9 (amended): a lexer step beginning at a letter or underscore
consumes the maximal run of identifier characters (letters, digits,
`_`, `-`, `.`) and, when the run's lower-casing matches no reserved
keyword/connective/boolean spelling, emits a single field-reference
token carrying the run with original casing; the following character,
if any, is not an identifier character.  (Runs beginning with a digit
take the number branch instead — see the counterexample.) -/
theorem claim_C9 :
    ∀ (fuel : ℕ) (c : Char) (cs : List Char),
      (pyIsAlpha c || c = '_') = true →
      isReservedLower (pyLower (String.mk ((c :: cs).takeWhile isIdentChar))) = false →
      tokenizeAux (fuel + 1) (c :: cs) =
        (tokenizeAux fuel ((c :: cs).dropWhile isIdentChar)).map
          (fun ts => .field (String.mk ((c :: cs).takeWhile isIdentChar)) :: ts)
      ∧ (∀ d, ((c :: cs).dropWhile isIdentChar).head? = some d → isIdentChar d = false) := by
  intro fuel c cs hc hres
  refine ⟨?_, fun d hd => head_dropWhile_false isIdentChar _ d hd⟩
  have halpha : pyIsAlpha c = true ∨ c = '_' := by
    cases h1 : pyIsAlpha c
    · rw [h1] at hc
      right
      simpa using hc
    · exact .inl rfl
  have hbounds : (65 ≤ c.toNat ∧ c.toNat ≤ 90) ∨ (97 ≤ c.toNat ∧ c.toNat ≤ 122) ∨ c = '_' := by
    rcases halpha with h | h
    · simp only [pyIsAlpha, Bool.or_eq_true, Bool.and_eq_true, decide_eq_true_eq] at h
      tauto
    · exact .inr (.inr h)
  have hsp : pyIsSpace c = false := by
    cases hpd : pyIsSpace c
    · rfl
    · exfalso
      simp only [pyIsSpace, Bool.or_eq_true, decide_eq_true_eq] at hpd
      rcases hbounds with h | h | h
      · omega
      · omega
      · rw [h] at hpd; exact absurd hpd (by decide)
  have hdg : pyIsDigit c = false := by
    cases hpd : pyIsDigit c
    · rfl
    · exfalso
      simp only [pyIsDigit, Bool.and_eq_true, decide_eq_true_eq] at hpd
      rcases hbounds with h | h | h
      · omega
      · omega
      · rw [h] at hpd; exact absurd hpd (by decide)
  have hne : ∀ d : Char, d.toNat < 65 ∨ (90 < d.toNat ∧ d.toNat < 95) ∨ (95 < d.toNat ∧ d.toNat < 97) ∨ 122 < d.toNat → c ≠ d := by
    intro d hd he
    subst he
    rcases hbounds with h | h | h
    · omega
    · omega
    · rw [h] at hd; revert hd; decide
  simp only [tokenizeAux, hsp, hdg, Bool.false_eq_true, if_false,
    if_neg (hne '(' (by decide)), if_neg (hne ')' (by decide)),
    decide_eq_false (hne '"' (by decide)), decide_eq_false (hne '\'' (by decide)),
    decide_eq_false (hne '-' (by decide)), decide_eq_false (hne '=' (by decide)),
    decide_eq_false (hne '!' (by decide)), decide_eq_false (hne '>' (by decide)),
    decide_eq_false (hne '<' (by decide)),
    Bool.false_or, Bool.false_and, Bool.or_false, Bool.or_self, hc, if_true]
  rw [classifyIdent_field _ hres]

/-- C9 (counterexample): a maximal identifier-character run whose first
character is a digit does not lex as a single field token — the digit
dispatches to the number branch first, so `2fast` lexes as the number
`2` followed by the field `fast`. -/
theorem claim_C9_counterexample :
    tokenizeStr "2fast" = .ok [.num 2, .field "fast", .eof]
    ∧ tokenizeStr "2fast" ≠ .ok [.field "2fast", .eof] :=
  ⟨by decide, by decide⟩

/-- C9 witness: the step theorem at the concrete input `Ab2`. -/
theorem claim_C9_witness :
    (pyIsAlpha 'A' || 'A' = '_') = true
    ∧ isReservedLower (pyLower (String.mk (('A' :: ['b', '2']).takeWhile isIdentChar))) = false
    ∧ tokenizeAux 4 ('A' :: ['b', '2']) =
        (tokenizeAux 3 (('A' :: ['b', '2']).dropWhile isIdentChar)).map
          (fun ts => .field (String.mk (('A' :: ['b', '2']).takeWhile isIdentChar)) :: ts) :=
  ⟨by decide, by decide, (claim_C9 3 'A' ['b', '2'] (by decide) (by decide)).1⟩

theorem wfToks_tail {t0 : Tok} {l : List Tok} (h : wfToks (t0 :: l)) : wfToks l :=
  fun t ht => h t (List.mem_cons_of_mem _ ht)

theorem wfToks_cons {t0 : Tok} {l : List Tok} (h0 : tokWF t0 = true) (h : wfToks l) :
    wfToks (t0 :: l) := by
  intro t ht
  rcases List.mem_cons.mp ht with h' | h'
  · exact h' ▸ h0
  · exact h t h'

/-- An accepted operator token is well-formed. -/
theorem opToken_wf (o : String) (t : Tok) (h : opToken o = .ok t) : tokWF t = true := by
  unfold opToken at h
  split_ifs at h with h1
  · injection h with h2
    subst h2
    exact h1

/-- Identifier classification always yields a well-formed token. -/
theorem classifyIdent_wf (s : String) : tokWF (classifyIdent s) = true := by
  unfold classifyIdent
  dsimp only
  split_ifs with h1 h2 h3 h4 <;> first | rfl | exact h1 | exact h2

/-- Peeling a `cons`-mapping off a successful lexer tail. -/
theorem map_cons_ok (t0 : Tok) (r : Except String (List Tok)) (ts : List Tok)
    (h : r.map (fun l => t0 :: l) = .ok ts) : ∃ l, r = .ok l ∧ ts = t0 :: l := by
  cases r with
  | error e => simp [Except.map] at h
  | ok l =>
    simp only [Except.map, Except.ok.injEq] at h
    exact ⟨l, rfl, h.symm⟩

set_option maxHeartbeats 2000000 in
/-- Every token the lexer emits is well-formed: operator tokens carry a
member of `Lexer.OPERATORS`, keyword tokens a member of
`Lexer.KEYWORDS`, connective tokens `and`/`or`. -/
theorem tokenizeAux_wf :
    ∀ (fuel : ℕ) (cs : List Char) (ts : List Tok),
      tokenizeAux fuel cs = .ok ts → wfToks ts := by
  intro fuel
  induction fuel with
  | zero =>
    intro cs ts h
    exact absurd h (by simp [tokenizeAux])
  | succ n ih =>
    intro cs ts h
    cases cs with
    | nil =>
      simp only [tokenizeAux, Except.ok.injEq] at h
      subst h
      intro t ht
      simp only [List.mem_singleton] at ht
      subst ht
      rfl
    | cons c rest =>
      simp only [tokenizeAux] at h
      split_ifs at h with h1 h2 h3 h4 h5 h6 h7
      · exact ih rest ts h
      · obtain ⟨l, hr, hts⟩ := map_cons_ok _ _ _ h
        subst hts
        exact wfToks_cons rfl (ih rest l hr)
      · obtain ⟨l, hr, hts⟩ := map_cons_ok _ _ _ h
        subst hts
        exact wfToks_cons rfl (ih rest l hr)
      · cases hs : readStringAux c [] rest with
        | error e => rw [hs] at h; exact Except.noConfusion h
        | ok sr =>
          rw [hs] at h
          obtain ⟨l, hr, hts⟩ := map_cons_ok _ _ _ h
          subst hts
          exact wfToks_cons rfl (ih _ l hr)
      · obtain ⟨l, hr, hts⟩ := map_cons_ok _ _ _ h
        subst hts
        exact wfToks_cons rfl (ih _ l hr)
      · split at h
        · cases ho : opToken (String.mk [c, '=']) with
          | error e => rw [ho] at h; exact Except.noConfusion h
          | ok t0 =>
            rw [ho] at h
            obtain ⟨l, hr, hts⟩ := map_cons_ok _ _ _ h
            subst hts
            exact wfToks_cons (opToken_wf _ _ ho) (ih _ l hr)
        · cases ho : opToken (String.mk [c]) with
          | error e => rw [ho] at h; exact Except.noConfusion h
          | ok t0 =>
            rw [ho] at h
            obtain ⟨l, hr, hts⟩ := map_cons_ok _ _ _ h
            subst hts
            exact wfToks_cons (opToken_wf _ _ ho) (ih _ l hr)
      · obtain ⟨l, hr, hts⟩ := map_cons_ok _ _ _ h
        subst hts
        exact wfToks_cons (classifyIdent_wf _) (ih _ l hr)

/-- A successful `parse_value` returns a string/number/boolean literal
and the remaining (still well-formed) tokens. -/
theorem parseValue_ok (toks : List Tok) (v : PyVal) (rest : List Tok)
    (hwf : wfToks toks) (h : parseValue toks = .ok (v, rest)) :
    isLexLiteral v = true ∧ wfToks rest := by
  cases toks with
  | nil => simp [parseValue] at h
  | cons t tl =>
    cases t with
    | str s =>
      simp only [parseValue, Except.ok.injEq, Prod.mk.injEq] at h
      obtain ⟨hv, hr⟩ := h
      subst hv; subst hr
      exact ⟨rfl, wfToks_tail hwf⟩
    | num q =>
      simp only [parseValue, Except.ok.injEq, Prod.mk.injEq] at h
      obtain ⟨hv, hr⟩ := h
      subst hv; subst hr
      exact ⟨rfl, wfToks_tail hwf⟩
    | bool b =>
      simp only [parseValue, Except.ok.injEq, Prod.mk.injEq] at h
      obtain ⟨hv, hr⟩ := h
      subst hv; subst hr
      exact ⟨rfl, wfToks_tail hwf⟩
    | field s => simp [parseValue] at h
    | op s => simp [parseValue] at h
    | logic s => simp [parseValue] at h
    | lparen => simp [parseValue] at h
    | rparen => simp [parseValue] at h
    | keyword s => simp [parseValue] at h
    | eof => simp [parseValue] at h

/-- The six comparison-operator strings are not nullary operators. -/
theorem sixOps_not_nullary (o : String)
    (h : (o = "=" || o = "!=" || o = ">" || o = "<" || o = ">=" || o = "<=") = true) :
    nullaryOp o = false := by
  simp only [Bool.or_eq_true, decide_eq_true_eq] at h
  rcases h with ((((h | h) | h) | h) | h) | h <;> subst h <;> decide

/-- A successful `parse_comparison` yields a comparison node satisfying
the value/operator invariant, with well-formed remaining tokens. -/
theorem parseComparison_ok (f : String) (toks : List Tok) (a : Ast) (rest : List Tok)
    (hwf : wfToks toks) (h : parseComparison f toks = .ok (a, rest)) :
    astInvB a = true ∧ wfToks rest := by
  cases toks with
  | nil => simp [parseComparison] at h
  | cons t tl =>
    cases t with
    | op o =>
      simp only [parseComparison] at h
      cases hv : parseValue tl with
      | error e => rw [hv] at h; exact Except.noConfusion h
      | ok vr =>
        rw [hv] at h
        simp only [Except.map, Except.ok.injEq, Prod.mk.injEq] at h
        obtain ⟨ha, hr⟩ := h
        subst ha; subst hr
        obtain ⟨hlit, hwr⟩ := parseValue_ok tl vr.1 vr.2 (wfToks_tail hwf) (by rw [hv])
        have hop : tokWF (.op o) = true := hwf _ (List.mem_cons_self _ _)
        have hnn : nullaryOp o = false := sixOps_not_nullary o hop
        exact ⟨by simp [astInvB, hnn, hlit], hwr⟩
    | keyword k =>
      simp only [parseComparison] at h
      split_ifs at h with hk1 hk2
      · cases hv : parseValue tl with
        | error e => rw [hv] at h; exact Except.noConfusion h
        | ok vr =>
          rw [hv] at h
          simp only [Except.map, Except.ok.injEq, Prod.mk.injEq] at h
          obtain ⟨ha, hr⟩ := h
          subst ha; subst hr
          obtain ⟨hlit, hwr⟩ := parseValue_ok tl vr.1 vr.2 (wfToks_tail hwf) (by rw [hv])
          have hnn : nullaryOp k = false := by
            simp only [Bool.or_eq_true, decide_eq_true_eq] at hk1
            rcases hk1 with (h' | h') | h' <;> subst h' <;> decide
          exact ⟨by simp [astInvB, hnn, hlit], hwr⟩
      · subst hk2
        split at h
        all_goals try split at h
        all_goals
          first
          | exact Except.noConfusion h
          | (injection h with h2
             injection h2 with ha hr
             subst ha; subst hr
             refine ⟨rfl, ?_⟩
             first
             | exact wfToks_tail (wfToks_tail hwf)
             | exact wfToks_tail (wfToks_tail (wfToks_tail hwf)))
    | field s => simp [parseComparison] at h
    | str s => simp [parseComparison] at h
    | num q => simp [parseComparison] at h
    | bool b => simp [parseComparison] at h
    | logic s => simp [parseComparison] at h
    | lparen => simp [parseComparison] at h
    | rparen => simp [parseComparison] at h
    | eof => simp [parseComparison] at h

/-- Fuel-indexed invariant for the five mutually recursive parser
functions: a successful parse yields an invariant-satisfying AST and
leaves the remaining tokens well-formed. -/
theorem parser_inv :
    ∀ fuel : ℕ,
      (∀ toks a rest, wfToks toks → parsePrimary fuel toks = .ok (a, rest) →
        astInvB a = true ∧ wfToks rest)
      ∧ (∀ toks a rest, wfToks toks → parseAnd fuel toks = .ok (a, rest) →
        astInvB a = true ∧ wfToks rest)
      ∧ (∀ left toks a rest, astInvB left = true → wfToks toks →
          parseAndLoop fuel left toks = .ok (a, rest) → astInvB a = true ∧ wfToks rest)
      ∧ (∀ toks a rest, wfToks toks → parseOr fuel toks = .ok (a, rest) →
        astInvB a = true ∧ wfToks rest)
      ∧ (∀ left toks a rest, astInvB left = true → wfToks toks →
          parseOrLoop fuel left toks = .ok (a, rest) → astInvB a = true ∧ wfToks rest) := by
  intro fuel
  induction fuel with
  | zero =>
    refine ⟨?_, ?_, ?_, ?_, ?_⟩
    · intro toks a rest _ h; exact absurd h (by simp [parsePrimary])
    · intro toks a rest _ h; exact absurd h (by simp [parseAnd])
    · intro left toks a rest _ _ h; exact absurd h (by simp [parseAndLoop])
    · intro toks a rest _ h; exact absurd h (by simp [parseOr])
    · intro left toks a rest _ _ h; exact absurd h (by simp [parseOrLoop])
  | succ n ih =>
    obtain ⟨ihP, ihA, ihAL, ihO, ihOL⟩ := ih
    have stepAnd : ∀ toks a rest, wfToks toks → parseAnd (n + 1) toks = .ok (a, rest) →
        astInvB a = true ∧ wfToks rest := by
      intro toks a rest hwf h
      simp only [parseAnd] at h
      cases hp : parsePrimary n toks with
      | error e => rw [hp] at h; exact Except.noConfusion h
      | ok lr =>
        rw [hp] at h
        obtain ⟨hinv, hwr⟩ := ihP toks lr.1 lr.2 hwf (by rw [hp])
        exact ihAL lr.1 lr.2 a rest hinv hwr h
    have stepOr : ∀ toks a rest, wfToks toks → parseOr (n + 1) toks = .ok (a, rest) →
        astInvB a = true ∧ wfToks rest := by
      intro toks a rest hwf h
      simp only [parseOr] at h
      cases hp : parseAnd n toks with
      | error e => rw [hp] at h; exact Except.noConfusion h
      | ok lr =>
        rw [hp] at h
        obtain ⟨hinv, hwr⟩ := ihA toks lr.1 lr.2 hwf (by rw [hp])
        exact ihOL lr.1 lr.2 a rest hinv hwr h
    refine ⟨?_, stepAnd, ?_, stepOr, ?_⟩
    · intro toks a rest hwf h
      simp only [parsePrimary] at h
      split at h
      · rename_i tl
        cases hor : parseOr n tl with
        | error e => rw [hor] at h; exact Except.noConfusion h
        | ok er =>
          rw [hor] at h
          dsimp only at h
          obtain ⟨hinv, hwr⟩ := ihO tl er.1 er.2 (wfToks_tail hwf) (by rw [hor])
          split at h
          · rename_i rest3 heq
            injection h with h2
            injection h2 with ha hr
            subst ha; subst hr
            exact ⟨hinv, wfToks_tail (heq ▸ hwr)⟩
          · exact Except.noConfusion h
      · rename_i f tl
        exact parseComparison_ok f tl a rest (wfToks_tail hwf) h
      · exact Except.noConfusion h
    · intro left toks a rest hinvl hwf h
      simp only [parseAndLoop] at h
      split at h
      · rename_i rest2
        cases hp : parsePrimary n rest2 with
        | error e => rw [hp] at h; exact Except.noConfusion h
        | ok rr =>
          rw [hp] at h
          obtain ⟨hinvr, hwr⟩ := ihP rest2 rr.1 rr.2 (wfToks_tail hwf) (by rw [hp])
          exact ihAL (.and left rr.1) rr.2 a rest (by simp [astInvB, hinvl, hinvr]) hwr h
      · injection h with h2
        injection h2 with ha hr
        subst ha; subst hr
        exact ⟨hinvl, hwf⟩
    · intro left toks a rest hinvl hwf h
      simp only [parseOrLoop] at h
      split at h
      · rename_i rest2
        cases hp : parseAnd n rest2 with
        | error e => rw [hp] at h; exact Except.noConfusion h
        | ok rr =>
          rw [hp] at h
          obtain ⟨hinvr, hwr⟩ := ihA rest2 rr.1 rr.2 (wfToks_tail hwf) (by rw [hp])
          exact ihOL (.or left rr.1) rr.2 a rest (by simp [astInvB, hinvl, hinvr]) hwr h
      · injection h with h2
        injection h2 with ha hr
        subst ha; subst hr
        exact ⟨hinvl, hwf⟩

/-- A successful `Parser.parse` on well-formed tokens satisfies the
AST invariant. -/
theorem parseTokens_inv (toks : List Tok) (a : Ast) (hwf : wfToks toks)
    (h : parseTokens toks = .ok a) : astInvB a = true := by
  unfold parseTokens at h
  split_ifs at h with h1
  · injection h with h2
    subst h2
    rfl
  · cases ho : parseOr (4 * toks.length + 8) toks with
    | error e => rw [ho] at h; exact Except.noConfusion h
    | ok ar =>
      rw [ho] at h
      dsimp only at h
      obtain ⟨hinv, _⟩ :=
        (parser_inv (4 * toks.length + 8)).2.2.2.1 toks ar.1 ar.2 hwf (by rw [ho])
      split_ifs at h with h2
      · injection h with h3
        subst h3
        exact hinv

/-- C8: in every AST produced by parsing an expression, a comparison's
value is `none` exactly when its operator is one of the four nullary
operators (`is_null`, `is_not_null`, `is_empty`, `is_not_empty`);
every other operator carries a non-none string/number/boolean
literal. -/
theorem claim_C8 :
    ∀ (expression : String) (ast : Ast),
      parseFilter expression = .ok ast → astInvB ast = true := by
  intro expr ast h
  unfold parseFilter at h
  split_ifs at h with h1
  · injection h with h2
    subst h2
    rfl
  · cases ht : tokenizeStr expr with
    | error e => rw [ht] at h; exact Except.noConfusion h
    | ok toks =>
      rw [ht] at h
      exact parseTokens_inv toks ast (tokenizeAux_wf _ _ _ ht) h

/-- C8 witness: `x is null` parses to a nullary comparison carrying
`none`, and the invariant holds on it. -/
theorem claim_C8_witness :
    parseFilter "x is null" = .ok (.comparison "x" "is_null" none)
    ∧ astInvB (.comparison "x" "is_null" none) = true :=
  ⟨by decide, claim_C8 "x is null" (.comparison "x" "is_null" none) (by decide)⟩

/-- C10: double-equals is never an operator — whenever the lexer's scan
reaches `==`, the greedy second-`=` consumption forms the token `==`,
which is not in `Lexer.OPERATORS`, so tokenisation fails with the
"Unknown operator" lex error; in particular `a == 1` fails to
tokenise. -/
theorem claim_C10 :
    (∀ (fuel : ℕ) (cs : List Char),
      tokenizeAux (fuel + 1) ('=' :: '=' :: cs) = .error "Unknown operator: ==")
    ∧ tokenizeStr "a == 1" = .error "Unknown operator: ==" := by
  refine ⟨fun fuel cs => rfl, by rfl⟩

end Datadabble
